import Mathlib

/-!
Verification development for the `mecs` entity-component-system storage
engine (modules `storage.py`, `filter.py`, `component.py`, `entity.py`,
`command_buffer.py` of the `yaecs` package).

The Python code is shallowly embedded as executable Lean definitions:

* Python `dict`s become insertion-ordered association lists with unique
  keys (`alookup`, `upsert`, `eraseKey` mirror `d[k]`, `d[k] = v`,
  `del d[k]`).
* Python `set`s become insertion-ordered duplicate-free lists
  (`setAdd`, `listUnion`, `listInter`, `listDiff` mirror `s.add`,
  `set.union`, `&`, `-`).
* Container objects are identified by their signature: the storage keeps
  at most one container per signature in `_signature_to_container`, so a
  `frozenset` of component types is a faithful stand-in for the object
  reference held by the other two indices.
* Exceptions become `Except`/explicit error results; operations that can
  raise after partial work additionally return the storage state at the
  point of the raise.
* `uuid4` draws are an external entropy source; the generator is
  parameterized by the stream of drawn 128-bit integers.
-/

deriving instance DecidableEq for Except

namespace Mecs

/-- Component types are runtime type objects used as dictionary keys; we
tag them with natural numbers. -/
abbrev CType := Nat

/-- `class Entity(str)`: an entity id is a string (the decimal
representation of a 128-bit uuid integer). -/
abbrev Entity := String

/-- A default entity value, used only to totalize list indexing that the
Python callers guarantee to be in range. -/
def entDefault : Entity := String.mk []

/-- A component instance: `type(c)` is the tag `ctype`, and `val` stands
for the component's payload. -/
structure Comp where
  ctype : CType
  val : Nat
deriving DecidableEq

/-- Default component, used only to totalize list indexing that the
Python callers guarantee to be in range. -/
def compDefault : Comp := ⟨0, 0⟩

/-- Insert a component type into a strictly ascending list, keeping it
strictly ascending (duplicates collapse). -/
def insertSorted (t : CType) : List CType → List CType
  | [] => [t]
  | x :: l =>
      if t = x then x :: l
      else if t < x then t :: x :: l
      else x :: insertSorted t l

/-- `Signature(frozenset)`: the set of component types of an entity.
A `frozenset` is order-independent and content-equal, so it is
represented canonically as the strictly ascending list of its
elements. -/
abbrev Sig := List CType

/-- Build the signature of a component dict's key view. -/
def sigOf (cts : List CType) : Sig :=
  cts.foldl (fun s t => insertSorted t s) []

/-! ### Python dictionaries as association lists -/

section AssocHelpers

variable {κ : Type} {ν : Type} [DecidableEq κ]

/-- `d[k]` / `d.get(k)`: first value stored under `k`. -/
def alookup (k : κ) : List (κ × ν) → Option ν
  | [] => none
  | p :: l => if p.1 = k then some p.2 else alookup k l

/-- `d[k] = v`: overwrite the entry for `k` in place, or append a new
entry (dictionaries are insertion ordered). -/
def upsert (l : List (κ × ν)) (k : κ) (v : ν) : List (κ × ν) :=
  match l with
  | [] => [(k, v)]
  | p :: l => if p.1 = k then (k, v) :: l else p :: upsert l k v

/-- `del d[k]`: drop the entry stored under `k`. -/
def eraseKey (k : κ) : List (κ × ν) → List (κ × ν)
  | [] => []
  | p :: l => if p.1 = k then eraseKey k l else p :: eraseKey k l

/-- `d.update(other)`: merge `other` into `d`, overwriting existing keys
and appending new ones in order. -/
def dictUpdate (d other : List (κ × ν)) : List (κ × ν) :=
  other.foldl (fun d p => upsert d p.1 p.2) d

@[simp] theorem alookup_nil (k : κ) : alookup k ([] : List (κ × ν)) = none := rfl

@[simp] theorem alookup_cons (k : κ) (p : κ × ν) (l : List (κ × ν)) :
    alookup k (p :: l) = if p.1 = k then some p.2 else alookup k l := rfl

theorem alookup_upsert_self (l : List (κ × ν)) (k : κ) (v : ν) :
    alookup k (upsert l k v) = some v := by
  induction l with
  | nil => simp [upsert, alookup]
  | cons p l ih =>
      by_cases h : p.1 = k <;> simp [upsert, alookup, h, ih]

theorem alookup_upsert_other (l : List (κ × ν)) (k k' : κ) (v : ν) (h : k' ≠ k) :
    alookup k' (upsert l k v) = alookup k' l := by
  induction l with
  | nil => simp [upsert, alookup, Ne.symm h]
  | cons p l ih =>
      by_cases hp : p.1 = k
      · have hp' : p.1 ≠ k' := by rw [hp]; exact Ne.symm h
        simp [upsert, hp, alookup, hp', Ne.symm h]
      · simp [upsert, hp, alookup, ih]

theorem alookup_eraseKey_self (l : List (κ × ν)) (k : κ) :
    alookup k (eraseKey k l) = none := by
  induction l with
  | nil => simp [eraseKey]
  | cons p l ih =>
      by_cases h : p.1 = k <;> simp [eraseKey, alookup, h, ih]

theorem alookup_eraseKey_other (l : List (κ × ν)) (k k' : κ) (h : k' ≠ k) :
    alookup k' (eraseKey k l) = alookup k' l := by
  induction l with
  | nil => simp [eraseKey]
  | cons p l ih =>
      by_cases hp : p.1 = k
      · have hp' : p.1 ≠ k' := by rw [hp]; exact Ne.symm h
        simp [eraseKey, hp, alookup, hp', ih, Ne.symm h]
      · simp [eraseKey, hp, alookup, ih]

theorem alookup_mem {l : List (κ × ν)} {k : κ} {v : ν}
    (h : alookup k l = some v) : (k, v) ∈ l := by
  induction l with
  | nil => simp [alookup] at h
  | cons p l ih =>
      obtain ⟨a, b⟩ := p
      by_cases hp : a = k
      · subst hp
        simp [alookup] at h
        subst h
        exact List.mem_cons_self _ _
      · simp [alookup, hp] at h
        exact List.mem_cons_of_mem _ (ih h)

end AssocHelpers

/-! ### Python sets as duplicate-free insertion-ordered lists -/

section SetHelpers

variable {α : Type} [DecidableEq α]

/-- `s.add(x)`. -/
def setAdd (l : List α) (x : α) : List α :=
  if x ∈ l then l else l ++ [x]

/-- `set.union` over a family, accumulating left to right. -/
def listUnion (a b : List α) : List α :=
  b.foldl setAdd a

/-- `a & b` on sets. -/
def listInter : List α → List α → List α
  | [], _ => []
  | x :: l, b => if x ∈ b then x :: listInter l b else listInter l b

/-- `a - b` on sets. -/
def listDiff : List α → List α → List α
  | [], _ => []
  | x :: l, b => if x ∈ b then listDiff l b else x :: listDiff l b

@[simp] theorem mem_setAdd {l : List α} {x y : α} :
    y ∈ setAdd l x ↔ y ∈ l ∨ y = x := by
  by_cases h : x ∈ l
  · simp only [setAdd, if_pos h]
    constructor
    · exact Or.inl
    · rintro (hy | rfl)
      · exact hy
      · exact h
  · simp [setAdd, h]

@[simp] theorem mem_listUnion {a b : List α} {x : α} :
    x ∈ listUnion a b ↔ x ∈ a ∨ x ∈ b := by
  induction b generalizing a with
  | nil => simp [listUnion]
  | cons y b ih =>
      simp only [listUnion, List.foldl_cons] at *
      rw [ih]
      simp only [mem_setAdd, List.mem_cons]
      tauto

@[simp] theorem mem_listInter {a b : List α} {x : α} :
    x ∈ listInter a b ↔ x ∈ a ∧ x ∈ b := by
  induction a with
  | nil => simp [listInter]
  | cons y a ih =>
      by_cases h : y ∈ b
      · simp only [listInter, if_pos h, List.mem_cons, ih]
        constructor
        · rintro (rfl | ⟨ha, hb⟩)
          · exact ⟨Or.inl rfl, h⟩
          · exact ⟨Or.inr ha, hb⟩
        · rintro ⟨rfl | ha, hb⟩
          · exact Or.inl rfl
          · exact Or.inr ⟨ha, hb⟩
      · simp only [listInter, if_neg h, ih, List.mem_cons]
        constructor
        · rintro ⟨ha, hb⟩
          exact ⟨Or.inr ha, hb⟩
        · rintro ⟨rfl | ha, hb⟩
          · exact absurd hb h
          · exact ⟨ha, hb⟩

@[simp] theorem mem_listDiff {a b : List α} {x : α} :
    x ∈ listDiff a b ↔ x ∈ a ∧ x ∉ b := by
  induction a with
  | nil => simp [listDiff]
  | cons y a ih =>
      by_cases h : y ∈ b
      · simp only [listDiff, if_pos h, ih, List.mem_cons]
        constructor
        · rintro ⟨ha, hb⟩
          exact ⟨Or.inr ha, hb⟩
        · rintro ⟨rfl | ha, hb⟩
          · exact absurd h hb
          · exact ⟨ha, hb⟩
      · simp only [listDiff, if_neg h, ih, List.mem_cons]
        constructor
        · rintro (rfl | ⟨ha, hb⟩)
          · exact ⟨Or.inl rfl, h⟩
          · exact ⟨Or.inr ha, hb⟩
        · rintro ⟨rfl | ha, hb⟩
          · exact Or.inl rfl
          · exact Or.inr ⟨ha, hb⟩

end SetHelpers

/-- A list comprehension over a partial function: the first failure
(`KeyError` in the source) aborts the whole comprehension. -/
def mapMOpt {α γ : Type} (f : α → Option γ) : List α → Option (List γ)
  | [] => some []
  | t :: ts =>
      match f t with
      | none => none
      | some v =>
          match mapMOpt f ts with
          | none => none
          | some vs => some (v :: vs)

theorem mapMOpt_isSome {α γ : Type} (f : α → Option γ) (ts : List α) :
    (mapMOpt f ts).isSome = ts.all fun t => (f t).isSome := by
  induction ts with
  | nil => rfl
  | cons t ts ih =>
      simp only [mapMOpt]
      cases h : f t with
      | none => simp [h]
      | some v =>
          cases h2 : mapMOpt f ts with
          | none => simp [h, h2, ← ih]
          | some vs => simp [h, h2, ← ih]

/-! ### Errors

`error.py` defines `EntityError` and `ComponentError`; `TypeError` and
`ValueError` are Python built-ins that the code can also raise. The
payload mirrors the argument passed to the exception constructor. -/

/-- Argument passed to an exception constructor. -/
inductive ErrArg
  | ent (e : Entity)
  | ct (t : CType)
  | cts (ts : List CType)
deriving DecidableEq

/-- The exceptions raised by the embedded code. `typeError` covers both
`set.union()` called with no arguments and a call whose positional
arguments fail to bind to the function's parameters; `valueError` is
the failed tuple unpack in `flush`'s loop header. -/
inductive PyErr
  | entityError (a : ErrArg)
  | componentError (a : ErrArg)
  | typeError
  | valueError
deriving DecidableEq

/-! ### `_Container` (storage.py)

A bucket of entities sharing one signature, as parallel dense arrays.
`_components` is a dict from component type to array; we fix its key
order to the sorted signature (dict iteration order is never observable:
every access is by key, and bulk loops run over all keys). Out-of-range
list indexing is totalized with defaults; the Python callers guarantee
indices in range ("this class does not check its inputs"). -/

structure Container where
  signature : Sig
  entities : List Entity
  components : List (CType × List Comp)
  indices : List (Entity × Nat)
deriving DecidableEq

namespace Container

/-- `_Container.__init__`. -/
def init (signature : Sig) : Container :=
  { signature := signature
    entities := []
    components := signature.map (fun ct => (ct, []))
    indices := [] }

/-- `len(container)`. -/
def length (c : Container) : Nat := c.entities.length

/-- `component_list`: the dense array of one component type
(`KeyError`, i.e. `none`, if the type is not in the signature). -/
def componentList (c : Container) (ct : CType) : Option (List Comp) :=
  alookup ct c.components

/-- `add`: append the entity and its components as a new row and record
the row index. -/
def add (c : Container) (e : Entity) (cd : List (CType × Comp)) : Container :=
  let ents := c.entities ++ [e]
  let comps := cd.foldl
    (fun comps p => comps.map fun q => if q.1 = p.1 then (q.1, q.2 ++ [p.2]) else q)
    c.components
  let index := ents.length - 1
  { c with entities := ents, components := comps, indices := upsert c.indices e index }

/-- `_move`: overwrite the row `indexTo` with the contents of row
`indexFrom` in the entity array and every component array, then point
the moved entity's index entry at `indexTo`. As in the source, the
moved entity is read from the entity array after the overwrite. -/
def move (c : Container) (indexTo indexFrom : Nat) : Container :=
  let ents := c.entities.set indexTo (c.entities.getD indexFrom entDefault)
  let comps := c.components.map fun p =>
    (p.1, p.2.set indexTo (p.2.getD indexFrom compDefault))
  let entityFrom := ents.getD indexFrom entDefault
  { c with entities := ents, components := comps
           indices := upsert c.indices entityFrom indexTo }

/-- `remove`: swap-and-pop. If the entity is not in the last row, move
the last row into its slot; then pop every array and delete the
entity's index entry. -/
def remove (c : Container) (e : Entity) : Container :=
  let index := (alookup e c.indices).getD 0
  let lastIndex := c.entities.length - 1
  let c1 := if index ≠ lastIndex then c.move index lastIndex else c
  { c1 with entities := c1.entities.dropLast
            components := c1.components.map (fun p => (p.1, p.2.dropLast))
            indices := eraseKey e c1.indices }

/-- `component_dict`: map each component type of the signature to the
entity's value in that column. -/
def componentDict (c : Container) (e : Entity) : List (CType × Comp) :=
  let index := (alookup e c.indices).getD 0
  c.components.map fun p => (p.1, p.2.getD index compDefault)

/-- `get_component`: one component of an entity (`none` models the
`KeyError` on a type outside the signature). -/
def getComponent (c : Container) (e : Entity) (ct : CType) : Option Comp :=
  let index := (alookup e c.indices).getD 0
  (alookup ct c.components).map fun cl => cl.getD index compDefault

/-- `get_components`: several components of an entity; the first type
outside the signature raises (`none`). -/
def getComponents (c : Container) (e : Entity) (cts : List CType) : Option (List Comp) :=
  let index := (alookup e c.indices).getD 0
  (mapMOpt (fun ct => alookup ct c.components) cts).map fun cls =>
    cls.map fun cl => cl.getD index compDefault

/-- `update`: overwrite components of the entity's row in place. -/
def update (c : Container) (e : Entity) (cd : List (CType × Comp)) : Container :=
  let index := (alookup e c.indices).getD 0
  let comps := cd.foldl
    (fun comps p => comps.map fun q => if q.1 = p.1 then (q.1, q.2.set index p.2) else q)
    c.components
  { c with components := comps }

end Container

/-! ### `Storage` (storage.py)

The three mutually consistent indices. Containers are mutable objects
in the source; here they are identified by their signature, which is a
faithful handle because `_signature_to_container` holds at most one
container per signature and a container is deregistered only once it is
empty (so every reference reachable through the other two indices is
also reachable through `_signature_to_container`). -/

structure Storage where
  entityToContainer : List (Entity × Sig)
  ctypeToContainer : List (CType × List Sig)
  signatureToContainer : List (Sig × Container)
deriving DecidableEq

/-- `component` parameter of `create`/`set`: a single component or an
iterable of components (`isinstance(component, Component)` test). -/
inductive CompArg
  | one (c : Comp)
  | many (cs : List Comp)
deriving DecidableEq

/-- `{type(c): c for c in component}` (a single component becomes the
one-entry dict); for duplicate types the last component prevails. -/
def CompArg.toDict : CompArg → List (CType × Comp)
  | .one c => [(c.ctype, c)]
  | .many cs => cs.foldl (fun d c => upsert d c.ctype c) []

/-- `component_type` parameter of `get`/`delete`/`select`: a single
component type or an iterable of component types
(`isinstance(component_type, ComponentMeta)` test). -/
inductive CTypeArg
  | one (t : CType)
  | many (ts : List CType)
deriving DecidableEq

/-- The exception payload `component_type` as passed by `Storage.get`
and `Storage.select`. -/
def CTypeArg.toErrArg : CTypeArg → ErrArg
  | .one t => .ct t
  | .many ts => .cts ts

namespace Storage

/-- `Storage.__init__`: three empty dicts. -/
def empty : Storage := ⟨[], [], []⟩

/-- Dereference a container handle; total because a handle stored in an
index always points at a registered container. -/
def getContainer (s : Storage) (sig : Sig) : Container :=
  (alookup sig s.signatureToContainer).getD (Container.init sig)

/-- `_add_entity`: find or create the container of the dict's signature,
register it in the inverted index when new, point the entity at it, and
add the row. The write-back into `_signature_to_container` reflects the
in-place mutation of the shared container object. -/
def addEntity (s : Storage) (e : Entity) (cd : List (CType × Comp)) : Storage :=
  let signature : Sig := sigOf (cd.map (·.1))
  match alookup signature s.signatureToContainer with
  | none =>
      let container := (Container.init signature).add e cd
      { entityToContainer := upsert s.entityToContainer e signature
        ctypeToContainer := signature.foldl
          (fun c2c ct =>
            match alookup ct c2c with
            | none => c2c ++ [(ct, [signature])]
            | some group => upsert c2c ct (setAdd group signature))
          s.ctypeToContainer
        signatureToContainer := upsert s.signatureToContainer signature container }
  | some container =>
      { s with entityToContainer := upsert s.entityToContainer e signature
               signatureToContainer :=
                 upsert s.signatureToContainer signature (container.add e cd) }

/-- `_remove_entity`: drop the entity from its container and, if the
container becomes empty, deregister the container from
`_signature_to_container` and from every inverted-index entry of its
signature, deleting inverted-index entries that become empty. -/
def removeEntity (s : Storage) (sig : Sig) (e : Entity) : Storage :=
  let container := (s.getContainer sig).remove e
  let e2c := eraseKey e s.entityToContainer
  if container.length = 0 then
    { entityToContainer := e2c
      ctypeToContainer := sig.foldl
        (fun c2c ct =>
          let group := (alookup ct c2c).getD []
          let group := group.erase sig
          if group.isEmpty then eraseKey ct c2c else upsert c2c ct group)
        s.ctypeToContainer
      signatureToContainer := eraseKey sig s.signatureToContainer }
  else
    { s with entityToContainer := e2c
             signatureToContainer := upsert s.signatureToContainer sig container }

/-- `_update_entity`: in-place update when no new component types are
introduced, otherwise migrate the entity to the container of the union
signature, carrying its merged component dict. -/
def updateEntity (s : Storage) (sig : Sig) (e : Entity) (cd : List (CType × Comp)) : Storage :=
  let container := s.getContainer sig
  if (cd.map (·.1)).all (fun t => sig.contains t) then
    { s with signatureToContainer :=
        upsert s.signatureToContainer sig (container.update e cd) }
  else
    let entityComponentDict := dictUpdate (container.componentDict e) cd
    (s.removeEntity sig e).addEntity e entityComponentDict

/-- `len(storage)`. -/
def size (s : Storage) : Nat := s.entityToContainer.length

/-- `entity in storage`. -/
def containsEntity (s : Storage) (e : Entity) : Bool :=
  (alookup e s.entityToContainer).isSome

/-- `create(component=None, entity_id=None)`: the entity id (freshly
generated by `uuid4` when not supplied) is passed in by the caller; if
components are given, the entity is added with their dict. -/
def create (s : Storage) (component : Option CompArg) (entityId : Entity) :
    Entity × Storage :=
  match component with
  | none => (entityId, s)
  | some arg => (entityId, s.addEntity entityId arg.toDict)

/-- `destroy(entity)`: `EntityError` when the entity is untracked
(raised before any mutation), otherwise remove it from its container. -/
def destroy (s : Storage) (e : Entity) : Except PyErr Unit × Storage :=
  match alookup e s.entityToContainer with
  | none => (.error (.entityError (.ent e)), s)
  | some sig => (.ok (), s.removeEntity sig e)

/-- `components(entity)`: the list of the entity's component values. -/
def components (s : Storage) (e : Entity) : Except PyErr (List Comp) :=
  match alookup e s.entityToContainer with
  | none => .error (.entityError (.ent e))
  | some sig => .ok (((s.getContainer sig).componentDict e).map (·.2))

/-- `signature(entity)`. -/
def signature (s : Storage) (e : Entity) : Except PyErr Sig :=
  match alookup e s.entityToContainer with
  | none => .error (.entityError (.ent e))
  | some sig => .ok (s.getContainer sig).signature

/-- `set(entity, component)`: `EntityError` when the entity is untracked
(raised before any mutation), otherwise update it in place or migrate
it to the union signature. -/
def set (s : Storage) (e : Entity) (component : CompArg) :
    Except PyErr Unit × Storage :=
  match alookup e s.entityToContainer with
  | none => (.error (.entityError (.ent e)), s)
  | some sig => (.ok (), s.updateEntity sig e component.toDict)

/-- `get(entity, component_type)`: the requested component value(s);
note the source passes `component_type` to `EntityError`. -/
def get (s : Storage) (e : Entity) (componentType : CTypeArg) :
    Except PyErr (Comp ⊕ List Comp) :=
  match alookup e s.entityToContainer with
  | none => .error (.entityError componentType.toErrArg)
  | some sig =>
      let container := s.getContainer sig
      match componentType with
      | .one t =>
          match container.getComponent e t with
          | none => .error (.componentError (.ct t))
          | some comp => .ok (.inl comp)
      | .many ts =>
          match container.getComponents e ts with
          | none => .error (.componentError (.cts ts))
          | some comps => .ok (.inr comps)

/-- `delete(entity, component_type)`: the source method's header omits
`self` — it has exactly two parameters — so the bound call
`storage.delete(entity, component_type)` passes three positional
arguments and argument binding raises `TypeError` on every call,
before the body (whose references to the name `self` would be unbound
anyway) ever executes and before any mutation. The behavior described
by its docstring is never reached. -/
def delete (s : Storage) (e : Entity) (componentType : CTypeArg) :
    Except PyErr Unit × Storage :=
  (.error .typeError, s)

/-- `clear()`: clear all three indices. -/
def clear (s : Storage) : Storage := empty

/-- `zip(*component_lists)`: the rows across the given columns,
truncated at the shortest column; `zip()` of no columns is empty. -/
def tupleZip (cls : List (List Comp)) : List (List Comp) :=
  match cls with
  | [] => []
  | c :: rest =>
      (List.range (rest.foldl (fun m cl => min m cl.length) c.length)).map
        fun i => cls.map fun cl => cl.getD i compDefault

/-- One container's contribution to `select`: `zip` of its entity list
with the requested column (or rows of columns); a requested type outside
the container's signature raises `ComponentError`. -/
def selectRows (s : Storage) (arg : CTypeArg) (key : Sig) :
    Except PyErr (List (Entity × (Comp ⊕ List Comp))) :=
  let container := s.getContainer key
  match arg with
  | .one t =>
      match container.componentList t with
      | none => .error (.componentError (.ct t))
      | some cl => .ok ((container.entities.zip cl).map fun p => (p.1, .inl p.2))
  | .many ts =>
      match mapMOpt container.componentList ts with
      | none => .error (.componentError (.cts ts))
      | some cls =>
          .ok ((container.entities.zip (tupleZip cls)).map fun p => (p.1, .inr p.2))

/-- The `for container in containers` loop of `select`; the error of the
first container lacking a requested type aborts the sequence. -/
def selectGo (s : Storage) (arg : CTypeArg) : List Sig → Except PyErr (List (Entity × (Comp ⊕ List Comp)))
  | [] => .ok []
  | key :: keys =>
      match selectRows s arg key with
      | .error err => .error err
      | .ok rows =>
          match selectGo s arg keys with
          | .error err => .error err
          | .ok rest => .ok (rows ++ rest)

/-- `select(component_type)`: iterate `set.union(*ctype_to_container.values())`
— every container of the inverted index, not only the matching ones.
On an empty inverted index `set.union()` raises `TypeError`. The
iteration order of the Python `set` is arbitrary; here containers are
visited in first-insertion order of the inverted index. -/
def select (s : Storage) (arg : CTypeArg) :
    Except PyErr (List (Entity × (Comp ⊕ List Comp))) :=
  match s.ctypeToContainer.map (·.2) with
  | [] => .error .typeError
  | groups => selectGo s arg (groups.foldl listUnion [])

end Storage

/-! ### `CommandBuffer` (command_buffer.py) -/

/-- A queued entry of `_commands`. Every `defer_*` method except
`defer_clear` appends a `(method, arguments)` 2-tuple; `defer_clear`
appends the 1-tuple `(storage.clear,)` with no arguments element —
`Cmd.clear` stands for that malformed entry. -/
inductive Cmd
  | create (component : Option CompArg) (entityId : Entity)
  | destroy (e : Entity)
  | set (e : Entity) (component : CompArg)
  | delete (e : Entity) (componentType : CTypeArg)
  | clear
deriving DecidableEq

/-- The buffer: the bound storage is passed explicitly; `_commands` is
the queue. -/
structure CommandBuffer where
  commands : List Cmd
deriving DecidableEq

namespace CommandBuffer

/-- `CommandBuffer.__init__`. -/
def init : CommandBuffer := ⟨[]⟩

/-- `defer_create`: generate a fresh entity id (passed in as `freshId`,
drawn from `_generate_new_entity_id`) and queue
`(storage.create, (component, entity))`. The source's body has no
`return` statement, so the caller receives `None` — not the generated
id — although the docstring promises the id of the entity that will be
created. -/
def deferCreate (b : CommandBuffer) (component : Option CompArg) (freshId : Entity) :
    CommandBuffer × Option Entity :=
  (⟨b.commands ++ [.create component freshId]⟩, none)

/-- `defer_destroy`. -/
def deferDestroy (b : CommandBuffer) (e : Entity) : CommandBuffer :=
  ⟨b.commands ++ [.destroy e]⟩

/-- `defer_set`. -/
def deferSet (b : CommandBuffer) (e : Entity) (component : CompArg) : CommandBuffer :=
  ⟨b.commands ++ [.set e component]⟩

/-- `defer_delete`. -/
def deferDelete (b : CommandBuffer) (e : Entity) (componentType : CTypeArg) : CommandBuffer :=
  ⟨b.commands ++ [.delete e componentType]⟩

/-- `defer_clear`: queues the 1-tuple `(self._storage.clear,)` — note,
not a `(method, arguments)` pair. -/
def deferClear (b : CommandBuffer) : CommandBuffer :=
  ⟨b.commands ++ [.clear]⟩

/-- `clear()`: discard the queue without applying it. -/
def clear (b : CommandBuffer) : CommandBuffer := ⟨[]⟩

end CommandBuffer

namespace Storage

/-- Replay one queue entry against the storage: unpack the entry in
`flush`'s `for cmd, args in self._commands` header, then call the
stored bound method on the stored arguments. The `defer_clear` entry
is the 1-tuple `(storage.clear,)`, so its unpack raises `ValueError`
and `storage.clear()` is never invoked; the replayed `delete` fails
argument binding with `TypeError` exactly like a direct call. The
returned storage is the state at normal return or at the point of the
raise. -/
def execCmd (s : Storage) : Cmd → Except PyErr Unit × Storage
  | .create component entityId => (.ok (), (s.create component entityId).2)
  | .destroy e => s.destroy e
  | .set e component => s.set e component
  | .delete e componentType => s.delete e componentType
  | .clear => (.error .valueError, s)

/-- The `for cmd, args in self._commands` loop of `flush`: unpack and
apply each queue entry in order; an exception — from the applied
method, or the `ValueError` unpacking a `defer_clear` 1-tuple — aborts
the loop and propagates. -/
def flushGo (s : Storage) : List Cmd → Except PyErr Unit × Storage
  | [] => (.ok (), s)
  | c :: cs =>
      match s.execCmd c with
      | (.ok _, s1) => flushGo s1 cs
      | (.error err, s1) => (.error err, s1)

end Storage

namespace CommandBuffer

/-- `flush()`: replay every queued command in order against the bound
storage, then clear the queue. `self.clear()` runs only after the loop
finishes, so an exception leaves the queue untouched. -/
def flush (b : CommandBuffer) (s : Storage) :
    Except PyErr Unit × Storage × CommandBuffer :=
  match Storage.flushGo s b.commands with
  | (.ok _, s1) => (.ok (), s1, b.clear)
  | (.error err, s1) => (.error err, s1, b)

end CommandBuffer

/-! ### `Filter` (filter.py) and `ComponentMeta` (component.py)

A filter is a pair of a single-signature test and a group test over the
inverted index (`archetypemap`). Group tests can raise (`set.union` with
no arguments is a `TypeError`), so they return `Except`. -/

/-- The inverted index as passed to group filters. -/
abbrev ArchetypeMap := List (CType × List Sig)

structure Filter where
  single : Sig → Bool
  group : ArchetypeMap → Except PyErr (List Sig)

namespace Filter

/-- `__and__`: conjunction of single tests, `&` of group results. -/
def and (f other : Filter) : Filter where
  single sig := f.single sig && other.single sig
  group am :=
    match f.group am with
    | .error err => .error err
    | .ok a =>
        match other.group am with
        | .error err => .error err
        | .ok b => .ok (listInter a b)

/-- `__or__`: disjunction of single tests, `|` of group results. -/
def or (f other : Filter) : Filter where
  single sig := f.single sig || other.single sig
  group am :=
    match f.group am with
    | .error err => .error err
    | .ok a =>
        match other.group am with
        | .error err => .error err
        | .ok b => .ok (listUnion a b)

/-- `set.union(*archetypemap.values())`: the union of all container
groups present in the inverted index; `TypeError` when the index has no
entries (`set.union` called with no arguments). -/
def allContainers (am : ArchetypeMap) : Except PyErr (List Sig) :=
  match am.map (·.2) with
  | [] => .error .typeError
  | groups => .ok (groups.foldl listUnion [])

/-- `__invert__`: negation of the single test; group test is the
complement of the operand's group relative to the union of all groups
(the union is evaluated first, as the left operand of `-`). -/
def invert (f : Filter) : Filter where
  single sig := !(f.single sig)
  group am :=
    match allContainers am with
    | .error err => .error err
    | .ok all =>
        match f.group am with
        | .error err => .error err
        | .ok g => .ok (listDiff all g)

end Filter

/-- `ComponentMeta.__init__`: every component type is itself the minimal
filter `lambda signature: self in signature` /
`lambda archetypemap: archetypemap.get(self, set())`. -/
def ctypeFilter (t : CType) : Filter where
  single sig := sig.contains t
  group am := .ok ((alookup t am).getD [])

/-! ### `_generate_new_entity_id` (entity.py)

`uuid4()` draws a random 128-bit integer from the process's entropy
source; the generator is parameterized by the stream of drawn integers.
`Entity(uuid.int)` builds the entity id as the decimal string of the
integer (`Entity` subclasses `str`). -/

/-- `Entity(uuid.int)` for one drawn integer. -/
def generateNewEntityId (draw : Nat) : Entity := Nat.repr draw

/-- The ids returned by the first `n` calls of the generator, given the
stream of `uuid4` draws. -/
def genEntityIds (draws : Nat → Nat) (n : Nat) : List Entity :=
  (List.range n).map fun i => generateNewEntityId (draws i)

/-! ### Injectivity of the decimal id construction

`str(int)` is injective, so distinct uuid draws give distinct entity
ids. We relate core's fueled `Nat.toDigitsCore` to a structurally
recursive digit function and give it a left inverse. -/

/-- Decimal digits of `n`, most significant first. -/
def digitsSpec (n : Nat) : List Char :=
  if h : n < 10 then [Nat.digitChar n]
  else digitsSpec (n / 10) ++ [Nat.digitChar (n % 10)]
termination_by n
decreasing_by
  simp only [not_lt] at h
  exact Nat.div_lt_self (by omega) (by omega)

theorem toDigitsCore_append (fuel : Nat) :
    ∀ (n : Nat) (ds : List Char),
      Nat.toDigitsCore 10 fuel n ds = Nat.toDigitsCore 10 fuel n [] ++ ds := by
  induction fuel with
  | zero => intro n ds; simp [Nat.toDigitsCore]
  | succ fuel ih =>
      intro n ds
      simp only [Nat.toDigitsCore]
      by_cases h : n / 10 = 0
      · simp [h]
      · simp only [if_neg h]
        rw [ih (n / 10) ((n % 10).digitChar :: ds), ih (n / 10) [(n % 10).digitChar]]
        simp

theorem toDigitsCore_eq_digitsSpec (fuel : Nat) :
    ∀ n : Nat, n < fuel → Nat.toDigitsCore 10 fuel n [] = digitsSpec n := by
  induction fuel with
  | zero => intro n h; omega
  | succ fuel ih =>
      intro n h
      simp only [Nat.toDigitsCore]
      by_cases h0 : n / 10 = 0
      · have hn : n < 10 := by omega
        rw [if_pos h0, digitsSpec]
        simp [hn, Nat.mod_eq_of_lt hn]
      · have hn : ¬n < 10 := by omega
        have hlt : n / 10 < fuel := by
          have : n / 10 < n := Nat.div_lt_self (by omega) (by omega)
          omega
        rw [if_neg h0, toDigitsCore_append, ih (n / 10) hlt]
        conv_rhs => rw [digitsSpec]
        simp [hn]

/-- Numeric value of a decimal digit character. -/
def charVal (c : Char) : Nat := c.toNat - 48

theorem charVal_digitChar : ∀ m : Nat, m < 10 → charVal (Nat.digitChar m) = m := by
  decide

/-- Left inverse of the digit expansion. -/
def decodeDigits (l : List Char) : Nat :=
  l.foldl (fun acc c => acc * 10 + charVal c) 0

theorem decode_digitsSpec (n : Nat) : decodeDigits (digitsSpec n) = n := by
  induction n using Nat.strong_induction_on with
  | _ n ih =>
      by_cases h : n < 10
      · rw [digitsSpec, dif_pos h]
        simp only [decodeDigits, List.foldl_cons, List.foldl_nil]
        simpa using charVal_digitChar n h
      · rw [digitsSpec, dif_neg h]
        simp only [decodeDigits, List.foldl_append, List.foldl_cons, List.foldl_nil]
        have hrec := ih (n / 10) (Nat.div_lt_self (by omega) (by omega))
        simp only [decodeDigits] at hrec
        rw [hrec, charVal_digitChar (n % 10) (Nat.mod_lt _ (by omega))]
        omega

theorem natRepr_injective : Function.Injective Nat.repr := by
  intro a b h
  have hdata : Nat.toDigits 10 a = Nat.toDigits 10 b := congrArg String.data h
  have hspec : digitsSpec a = digitsSpec b := by
    rw [Nat.toDigits, Nat.toDigits,
      toDigitsCore_eq_digitsSpec (a + 1) a (Nat.lt_succ_self a),
      toDigitsCore_eq_digitsSpec (b + 1) b (Nat.lt_succ_self b)] at hdata
    exact hdata
  have := congrArg decodeDigits hspec
  rwa [decode_digitsSpec, decode_digitsSpec] at this

theorem generateNewEntityId_injective : Function.Injective generateNewEntityId :=
  natRepr_injective

/-! ### Concrete fixtures

The three-entity population of the end-to-end scenario: `entA` has
`{Position}`, `entB` has `{Position, Velocity}`, `entC` has nothing. -/

/-- Position component type tag. -/
def ctPos : CType := 0

/-- Velocity component type tag. -/
def ctVel : CType := 1

def entA : Entity := Nat.repr 1

def entB : Entity := Nat.repr 2

def entC : Entity := Nat.repr 3

def entD : Entity := Nat.repr 4

def entE : Entity := Nat.repr 5

/-- An id never handed to the storage. -/
def entGhost : Entity := Nat.repr 99

def sceneOnePos : Storage :=
  (Storage.create Storage.empty (some (.many [⟨ctPos, 10⟩])) entA).2

def scenePosVel : Storage :=
  (Storage.create sceneOnePos (some (.many [⟨ctPos, 20⟩, ⟨ctVel, 30⟩])) entB).2

def sceneFull : Storage := (Storage.create scenePosVel none entC).2

/-! ### Characterization of `select` -/

namespace Storage

/-- The union of all container groups of the inverted index, in
first-insertion order. -/
def unionKeys (s : Storage) : List Sig :=
  (s.ctypeToContainer.map (·.2)).foldl listUnion []

/-- Whether a container holds columns for all requested component
types. -/
def hasTypes (s : Storage) (k : Sig) (arg : CTypeArg) : Bool :=
  match arg with
  | .one t => ((s.getContainer k).componentList t).isSome
  | .many ts => ts.all fun t => ((s.getContainer k).componentList t).isSome

theorem selectRows_isOk_iff (s : Storage) (arg : CTypeArg) (k : Sig) :
    (∃ rows, selectRows s arg k = .ok rows) ↔ s.hasTypes k arg = true := by
  cases arg with
  | one t =>
      simp only [selectRows, hasTypes]
      cases h : (s.getContainer k).componentList t <;> simp [h]
  | many ts =>
      simp only [selectRows, hasTypes]
      rw [← mapMOpt_isSome]
      cases h : mapMOpt (s.getContainer k).componentList ts <;> simp [h]

theorem selectGo_ok_iff (s : Storage) (arg : CTypeArg) :
    ∀ keys : List Sig,
      (∃ l, selectGo s arg keys = .ok l) ↔ ∀ k ∈ keys, s.hasTypes k arg = true := by
  intro keys
  induction keys with
  | nil => simp [selectGo]
  | cons key keys ih =>
      simp only [selectGo]
      cases h : selectRows s arg key with
      | error err =>
          simp only [h]
          constructor
          · rintro ⟨l, hl⟩
            cases hl
          · intro hall
            have : ∃ rows, selectRows s arg key = .ok rows :=
              (selectRows_isOk_iff s arg key).mpr (hall key (List.mem_cons_self _ _))
            rw [h] at this
            obtain ⟨rows, hr⟩ := this
            cases hr
      | ok rows =>
          simp only [h]
          cases h2 : selectGo s arg keys with
          | error err =>
              have hnone : ¬∃ l, selectGo s arg keys = .ok l := by
                rw [h2]
                rintro ⟨l, hl⟩
                cases hl
              constructor
              · rintro ⟨l, hl⟩
                cases hl
              · intro hall
                exact absurd (ih.mpr fun k hk => hall k (List.mem_cons_of_mem _ hk)) hnone
          | ok rest =>
              constructor
              · intro _ k hk
                rcases List.mem_cons.mp hk with rfl | hk
                · exact (selectRows_isOk_iff s arg k).mp ⟨rows, h⟩
                · exact (ih.mp ⟨rest, h2⟩) k hk
              · intro _
                exact ⟨rows ++ rest, rfl⟩

end Storage

/-! ### Claim C1 -/

/-- C1 counterexample: in the end-to-end population (`entA` with
`{Position}`, `entB` with `{Position, Velocity}`, `entC` untracked),
`select((Position, Velocity))` raises `ComponentError` when the loop
visits the `{Position}`-only container, instead of skipping it and
yielding exactly the one `{Position, Velocity}` row; and `select` of an
empty collection of types yields no pairs at all instead of every
tracked entity. -/
theorem select_missing_type_raises_counterexample :
    Storage.select sceneFull (.many [ctPos, ctVel])
        = .error (.componentError (.cts [ctPos, ctVel]))
    ∧ Storage.select sceneFull (.many []) = .ok [] := by
  constructor <;> decide

/-- C1 (amended): `select(component_type)` iterates the union of every
container group of the inverted index — all containers, not only the
matching ones. The full sequence materializes without error exactly
when every container of that union has all the requested component
types; a container lacking one raises `ComponentError` rather than
being skipped. On a storage with no containers the `set.union()` call
raises `TypeError` (there is also no zero-argument form of `select`:
the `component_type` parameter is required). In the end-to-end
population, `select(Position)` does yield exactly the two
`(entity, Position)` pairs. -/
theorem select_iterates_all_containers_amended :
    (∀ (s : Storage) (arg : CTypeArg), s.ctypeToContainer = [] →
        Storage.select s arg = .error .typeError)
    ∧ (∀ (s : Storage) (arg : CTypeArg), s.ctypeToContainer ≠ [] →
        ((∃ l, Storage.select s arg = .ok l) ↔
          ∀ k ∈ s.unionKeys, s.hasTypes k arg = true))
    ∧ Storage.select sceneFull (.one ctPos)
        = .ok [(entA, .inl ⟨ctPos, 10⟩), (entB, .inl ⟨ctPos, 20⟩)] := by
  refine ⟨?_, ?_, by decide⟩
  · intro s arg h
    simp [Storage.select, h]
  · intro s arg h
    have hmap : s.ctypeToContainer.map (·.2) ≠ [] := by
      simpa using h
    unfold Storage.select
    cases hc : s.ctypeToContainer.map (·.2) with
    | nil => exact absurd hc hmap
    | cons g groups =>
        rw [Storage.unionKeys, hc]
        exact Storage.selectGo_ok_iff s arg _

/-- C1 witness: the amended theorem at concrete inputs — the fresh
storage raises `TypeError`, and on the scenario storage the
characterization applies to `select(Position)`. -/
theorem select_iterates_all_containers_amended_witness :
    Storage.select Storage.empty (.one ctPos) = .error .typeError
    ∧ ((∃ l, Storage.select sceneFull (.one ctPos) = .ok l) ↔
        ∀ k ∈ sceneFull.unionKeys, sceneFull.hasTypes k (.one ctPos) = true) :=
  ⟨select_iterates_all_containers_amended.1 Storage.empty (.one ctPos) rfl,
   select_iterates_all_containers_amended.2.1 sceneFull (.one ctPos) (by decide)⟩

/-! ### Claim C2 -/

/-- C2 counterexample: `set` on an entity with no prior tracked state
raises `EntityError` and leaves the storage unchanged, while `create`
with the same component tracks the entity — so `set` does fail, and is
not equivalent to `create`, on untracked entities. -/
theorem set_on_untracked_raises_counterexample :
    Storage.set Storage.empty entA (.one ⟨ctPos, 5⟩)
        = (.error (.entityError (.ent entA)), Storage.empty)
    ∧ (Storage.create Storage.empty (some (.one ⟨ctPos, 5⟩)) entA).2.containsEntity entA
        = true := by
  constructor <;> decide

/-- C2 (amended): `set(entity, component)` succeeds exactly on tracked
entities — for those it never fails, upgrading the signature as needed
— and on an untracked entity it raises `EntityError` before any
mutation, leaving the storage unchanged (an entity must be initialized
through `create`, not `set`). -/
theorem set_fails_exactly_on_untracked_amended :
    ∀ (s : Storage) (e : Entity) (component : CompArg),
      ((Storage.set s e component).1 = .ok () ↔ s.containsEntity e = true)
      ∧ (s.containsEntity e = false →
          Storage.set s e component = (.error (.entityError (.ent e)), s)) := by
  intro s e component
  unfold Storage.set Storage.containsEntity
  cases h : alookup e s.entityToContainer <;> simp [h]

/-- C2 witness: the amended theorem at concrete inputs — `set` on a
fresh storage errors without touching it, and the success criterion
applies to a tracked entity. -/
theorem set_fails_exactly_on_untracked_amended_witness :
    Storage.set Storage.empty entA (.one ⟨ctPos, 5⟩)
        = (.error (.entityError (.ent entA)), Storage.empty)
    ∧ ((Storage.set sceneOnePos entA (.one ⟨ctVel, 9⟩)).1 = .ok ()
        ↔ sceneOnePos.containsEntity entA = true) :=
  ⟨(set_fails_exactly_on_untracked_amended Storage.empty entA (.one ⟨ctPos, 5⟩)).2
      (by decide),
   (set_fails_exactly_on_untracked_amended sceneOnePos entA (.one ⟨ctVel, 9⟩)).1⟩

/-! ### Claim C3 -/

/-- The entity of the claim's scenario, carrying components of two
types: created with a Position component, then given a Velocity
component through `set` (which migrates it to the `{P, V}`
container). -/
def sceneAB : Storage :=
  (Storage.set (Storage.create Storage.empty (some (.one ⟨ctPos, 1⟩)) entA).2
    entA (.one ⟨ctVel, 2⟩)).2

/-- C3: `delete` raises `TypeError` on every call — its header omits
`self`, leaving a two-parameter function, so the bound call
`storage.delete(entity, component_type)` passes three positional
arguments and fails argument binding before the body (whose `self`
references would be unbound anyway) ever runs, hence before any
mutation. In the claim's scenario the entity keeps both components
and its two-type signature instead of losing the deleted type. -/
theorem delete_always_raises_typeError :
    (∀ (s : Storage) (e : Entity) (componentType : CTypeArg),
        Storage.delete s e componentType = (.error .typeError, s))
    ∧ Storage.delete sceneAB entA (.one ctPos) = (.error .typeError, sceneAB)
    ∧ Storage.components sceneAB entA = .ok [⟨ctPos, 1⟩, ⟨ctVel, 2⟩]
    ∧ Storage.signature sceneAB entA = .ok [ctPos, ctVel] := by
  exact ⟨fun s e componentType => rfl, by decide, by decide, by decide⟩

/-! ### Claim C4 -/

/-- C4: `defer_create` queues `(storage.create, (component, entity))`
with a freshly generated id, but its body has no `return` statement, so
the caller receives `None` rather than that id — contradicting its
docstring — even though at `flush()` the created entity does receive
the queued id. -/
theorem defer_create_returns_none :
    CommandBuffer.deferCreate CommandBuffer.init (some (.one ⟨ctPos, 7⟩)) entC
        = (⟨[.create (some (.one ⟨ctPos, 7⟩)) entC]⟩, none)
    ∧ ((CommandBuffer.flush ⟨[.create (some (.one ⟨ctPos, 7⟩)) entC]⟩
          Storage.empty).2.1.containsEntity entC = true) := by
  constructor <;> decide

/-! ### Claim C6 -/

/-- C6: `create` with an empty iterable of components adds the entity
to `entity_to_container` with the empty signature: the storage then
tracks an entity that has zero components, violating the documented
invariant that an entity is tracked iff it has at least one
component. -/
theorem create_empty_iterable_tracks_componentless_entity :
    ((Storage.create Storage.empty (some (.many [])) entA).2.containsEntity entA
        = true)
    ∧ Storage.components (Storage.create Storage.empty (some (.many [])) entA).2 entA
        = .ok []
    ∧ Storage.signature (Storage.create Storage.empty (some (.many [])) entA).2 entA
        = .ok [] := by
  exact ⟨by decide, by decide, by decide⟩

/-! ### Claim C10 -/

/-- C10: `destroy`, `set`, `get`, `components` and `signature` look the
entity up in `entity_to_container` before doing anything else; when the
entity is untracked each raises `EntityError` (with the source's quirk
that `get` passes `component_type` to the exception) and the storage —
all three indices and every container — is returned unchanged. -/
theorem untracked_entity_errors_leave_storage_unchanged :
    ∀ (s : Storage) (e : Entity) (component : CompArg) (componentType : CTypeArg),
      s.containsEntity e = false →
      Storage.destroy s e = (.error (.entityError (.ent e)), s)
      ∧ Storage.set s e component = (.error (.entityError (.ent e)), s)
      ∧ Storage.get s e componentType = .error (.entityError componentType.toErrArg)
      ∧ Storage.components s e = .error (.entityError (.ent e))
      ∧ Storage.signature s e = .error (.entityError (.ent e)) := by
  intro s e component componentType h
  have h' : alookup e s.entityToContainer = none := by
    cases hl : alookup e s.entityToContainer with
    | none => rfl
    | some sig => simp [Storage.containsEntity, hl] at h
  exact ⟨by simp [Storage.destroy, h'], by simp [Storage.set, h'],
    by simp [Storage.get, h'], by simp [Storage.components, h'],
    by simp [Storage.signature, h']⟩

/-- C10 witness: the theorem applied to a nonempty storage and an id
never handed to it. -/
theorem untracked_entity_errors_leave_storage_unchanged_witness :
    Storage.destroy sceneOnePos entGhost
        = (.error (.entityError (.ent entGhost)), sceneOnePos)
    ∧ Storage.set sceneOnePos entGhost (.one ⟨ctVel, 1⟩)
        = (.error (.entityError (.ent entGhost)), sceneOnePos)
    ∧ Storage.get sceneOnePos entGhost (.one ctVel)
        = .error (.entityError (CTypeArg.one ctVel).toErrArg)
    ∧ Storage.components sceneOnePos entGhost
        = .error (.entityError (.ent entGhost))
    ∧ Storage.signature sceneOnePos entGhost
        = .error (.entityError (.ent entGhost)) :=
  untracked_entity_errors_leave_storage_unchanged sceneOnePos entGhost
    (.one ⟨ctVel, 1⟩) (.one ctVel) (by decide)

/-! ### Claim C9 -/

namespace Storage

/-- Whether every command of the list replays without raising, the
storage threading through. -/
def allOkB (s : Storage) : List Cmd → Bool
  | [] => true
  | c :: cs =>
      match s.execCmd c with
      | (.ok _, s1) => allOkB s1 cs
      | (.error _, _) => false

/-- The storage after replaying a list of commands (results ignored). -/
def applyCmds (s : Storage) (cs : List Cmd) : Storage :=
  cs.foldl (fun t c => (t.execCmd c).2) s

/-- A command that raises does so before mutating the storage. -/
theorem execCmd_error_state (s : Storage) (c : Cmd) (err : PyErr)
    (h : (s.execCmd c).1 = .error err) : (s.execCmd c).2 = s := by
  cases c with
  | create component entityId => simp [execCmd] at h
  | destroy e =>
      unfold execCmd destroy at h ⊢
      cases hl : alookup e s.entityToContainer <;> simp [hl] at h ⊢
  | set e component =>
      unfold execCmd set at h ⊢
      cases hl : alookup e s.entityToContainer <;> simp [hl] at h ⊢
  | delete e componentType => rfl
  | clear => rfl

theorem flushGo_error (s : Storage) (cs : List Cmd) (err : PyErr) (s' : Storage)
    (h : flushGo s cs = (.error err, s')) :
    ∃ pre c post, cs = pre ++ c :: post ∧ allOkB s pre = true
      ∧ (execCmd (applyCmds s pre) c).1 = .error err
      ∧ s' = applyCmds s pre := by
  induction cs generalizing s with
  | nil => simp [flushGo] at h
  | cons c cs ih =>
      cases hc : s.execCmd c with
      | mk r s1 =>
          cases r with
          | ok u =>
              simp only [flushGo, hc] at h
              obtain ⟨pre, c', post, h1, h2, h3, h4⟩ := ih s1 h
              refine ⟨c :: pre, c', post, by simp [h1], ?_, ?_, ?_⟩
              · simp [allOkB, hc, h2]
              · simpa [applyCmds, hc] using h3
              · simpa [applyCmds, hc] using h4
          | error e2 =>
              simp only [flushGo, hc] at h
              have he : e2 = err := by simpa using congrArg Prod.fst h
              have hs : s1 = s' := by simpa using congrArg Prod.snd h
              have hstate : s1 = s := by
                have h2 : (s.execCmd c).1 = .error e2 := by rw [hc]
                have h3 := execCmd_error_state s c e2 h2
                rw [hc] at h3
                simpa using h3
              refine ⟨[], c, cs, rfl, rfl, ?_, ?_⟩
              · simp [applyCmds, hc, he]
              · rw [← hs]
                simpa [applyCmds] using hstate

end Storage

/-- C9: when replaying a queue entry raises during `flush()` — whether
from the replayed method (`EntityError` from `destroy`/`set`, the
arity `TypeError` from `delete`) or from the loop header's `ValueError`
unpacking a `defer_clear` 1-tuple — the loop aborts: the queue is
returned unchanged (the `self.clear()` after the loop is never
reached, so even the already-applied commands stay queued) and the
storage holds exactly the effects of the entries before the failing
one — no later entry is applied. A subsequent `flush()` therefore
starts over on the same queue, re-applying the already-applied prefix
before reaching the failing entry again. -/
theorem flush_error_keeps_queue_and_stops_at_failure
    (b : CommandBuffer) (s : Storage) (err : PyErr) (s' : Storage)
    (b' : CommandBuffer) (h : b.flush s = (.error err, s', b')) :
    b' = b ∧ ∃ pre c post, b.commands = pre ++ c :: post
      ∧ Storage.allOkB s pre = true
      ∧ (Storage.execCmd (Storage.applyCmds s pre) c).1 = .error err
      ∧ s' = Storage.applyCmds s pre := by
  unfold CommandBuffer.flush at h
  cases hg : Storage.flushGo s b.commands with
  | mk r s1 =>
      cases r with
      | ok u => simp [hg] at h
      | error e2 =>
          simp only [hg] at h
          have he : e2 = err := by simpa using congrArg (fun p => p.1) h
          have hs : s1 = s' := by simpa using congrArg (fun p => p.2.1) h
          have hb : b = b' := by simpa using congrArg (fun p => p.2.2) h
          refine ⟨hb.symm, ?_⟩
          apply Storage.flushGo_error s b.commands err s'
          rw [hg, he, hs]

/-- The buffer of the C9 scenario: a successful `create`, then a
`destroy` of an id the storage never saw (which raises `EntityError`
at replay), then another `create` that is never reached. -/
def bufSample : CommandBuffer :=
  ⟨[.create (some (.one ⟨ctPos, 7⟩)) entA, .destroy entGhost, .create none entB]⟩

/-- The storage holding only the effect of the first queued command. -/
def sAfterCreate : Storage :=
  (Storage.create Storage.empty (some (.one ⟨ctPos, 7⟩)) entA).2

/-- The buffer of the second C9 scenario: a successful `create`, then
a `defer_clear` entry whose 1-tuple unpack raises `ValueError` at
replay, then a `create` that is never reached. -/
def bufClearSample : CommandBuffer :=
  ⟨[.create (some (.one ⟨ctPos, 7⟩)) entA, .clear, .create none entB]⟩

/-- C9 witness: flushing `bufSample` on the empty storage raises
`EntityError` on the second entry, and flushing `bufClearSample`
raises `ValueError` unpacking its queued `defer_clear` entry; the
theorem yields the queue-preservation and prefix-only-application
facts for both. -/
theorem flush_error_keeps_queue_and_stops_at_failure_witness :
    (bufSample = bufSample ∧ ∃ pre c post, bufSample.commands = pre ++ c :: post
      ∧ Storage.allOkB Storage.empty pre = true
      ∧ (Storage.execCmd (Storage.applyCmds Storage.empty pre) c).1
          = .error (.entityError (.ent entGhost))
      ∧ sAfterCreate = Storage.applyCmds Storage.empty pre)
    ∧ (bufClearSample = bufClearSample
      ∧ ∃ pre c post, bufClearSample.commands = pre ++ c :: post
      ∧ Storage.allOkB Storage.empty pre = true
      ∧ (Storage.execCmd (Storage.applyCmds Storage.empty pre) c).1
          = .error .valueError
      ∧ sAfterCreate = Storage.applyCmds Storage.empty pre) :=
  ⟨flush_error_keeps_queue_and_stops_at_failure bufSample Storage.empty
      (.entityError (.ent entGhost)) sAfterCreate bufSample (by decide),
   flush_error_keeps_queue_and_stops_at_failure bufClearSample Storage.empty
      .valueError sAfterCreate bufClearSample (by decide)⟩

/-! ### Claim C7 -/

theorem mem_foldl_listUnion {α : Type} [DecidableEq α] (x : α) :
    ∀ (groups : List (List α)) (acc : List α),
      x ∈ groups.foldl listUnion acc ↔ x ∈ acc ∨ ∃ g ∈ groups, x ∈ g := by
  intro groups
  induction groups with
  | nil => simp
  | cons g gs ih =>
      intro acc
      rw [List.foldl_cons, ih]
      simp only [mem_listUnion, List.mem_cons]
      constructor
      · rintro ((hx | hx) | ⟨g', hg', hx⟩)
        · exact Or.inl hx
        · exact Or.inr ⟨g, Or.inl rfl, hx⟩
        · exact Or.inr ⟨g', Or.inr hg', hx⟩
      · rintro (hx | ⟨g', rfl | hg', hx⟩)
        · exact Or.inl (Or.inl hx)
        · exact Or.inl (Or.inr hx)
        · exact Or.inr ⟨g', hg', hx⟩

/-- C7 counterexample: on the empty inverted index, the group test of
`~(component type)` raises `TypeError` (`set.union` with no arguments)
instead of returning the complement relative to the empty union. -/
theorem invert_group_on_empty_index_counterexample :
    (Filter.invert (ctypeFilter ctPos)).group [] = .error .typeError := rfl

/-- C7 (amended): the single tests compose exactly as claimed (and a
bare component type tests membership in the signature); on group tests,
AND returns the set intersection and OR the set union of the operands'
results, a bare component type returns the inverted-index entry of the
type (empty set when absent), and NOT returns the complement of the
operand's result relative to the union of all containers present in
the inverted index provided the index is nonempty — on an empty
inverted index NOT's group test raises `TypeError` instead. -/
theorem filter_combinators_amended :
    ∀ (f g : Filter) (t : CType) (sig : Sig) (am : ArchetypeMap) (a b : List Sig),
      ((f.and g).single sig = (f.single sig && g.single sig))
      ∧ ((f.or g).single sig = (f.single sig || g.single sig))
      ∧ ((f.invert).single sig = !(f.single sig))
      ∧ ((ctypeFilter t).single sig = sig.contains t)
      ∧ (f.group am = .ok a → g.group am = .ok b →
          ∃ c, (f.and g).group am = .ok c ∧ ∀ x, x ∈ c ↔ x ∈ a ∧ x ∈ b)
      ∧ (f.group am = .ok a → g.group am = .ok b →
          ∃ c, (f.or g).group am = .ok c ∧ ∀ x, x ∈ c ↔ x ∈ a ∨ x ∈ b)
      ∧ (am ≠ [] → f.group am = .ok a →
          ∃ c, (f.invert).group am = .ok c
            ∧ ∀ x, x ∈ c ↔ (∃ p ∈ am, x ∈ p.2) ∧ x ∉ a)
      ∧ ((ctypeFilter t).group am = .ok ((alookup t am).getD [])) := by
  intro f g t sig am a b
  refine ⟨rfl, rfl, rfl, rfl, ?_, ?_, ?_, rfl⟩
  · intro ha hb
    refine ⟨listInter a b, ?_, fun x => mem_listInter⟩
    simp [Filter.and, ha, hb]
  · intro ha hb
    refine ⟨listUnion a b, ?_, fun x => mem_listUnion⟩
    simp [Filter.or, ha, hb]
  · intro ham ha
    cases hm : am.map (·.2) with
    | nil => exact absurd (List.map_eq_nil_iff.mp hm) ham
    | cons g0 gs =>
        refine ⟨listDiff ((g0 :: gs).foldl listUnion []) a, ?_, ?_⟩
        · simp [Filter.invert, Filter.allContainers, hm, ha]
        · intro x
          rw [mem_listDiff, mem_foldl_listUnion]
          simp only [List.not_mem_nil, false_or, ← hm]
          constructor
          · rintro ⟨⟨g', hg', hx⟩, hna⟩
            obtain ⟨p, hp, rfl⟩ := List.mem_map.mp hg'
            exact ⟨⟨p, hp, hx⟩, hna⟩
          · rintro ⟨⟨p, hp, hx⟩, hna⟩
            exact ⟨⟨p.2, List.mem_map.mpr ⟨p, hp, rfl⟩, hx⟩, hna⟩

/-- C7 witness: the amended theorem at the scenario's inverted index
(entries for Position and Velocity), with the two bare component-type
filters. -/
theorem filter_combinators_amended_witness :
    (∃ c, ((ctypeFilter ctPos).and (ctypeFilter ctVel)).group
          sceneFull.ctypeToContainer = .ok c
        ∧ ∀ x, x ∈ c ↔ x ∈ [[ctPos], [ctPos, ctVel]] ∧ x ∈ [[ctPos, ctVel]])
    ∧ (∃ c, (Filter.invert (ctypeFilter ctPos)).group
          sceneFull.ctypeToContainer = .ok c
        ∧ ∀ x, x ∈ c ↔ (∃ p ∈ sceneFull.ctypeToContainer, x ∈ p.2)
            ∧ x ∉ [[ctPos], [ctPos, ctVel]]) :=
  ⟨(filter_combinators_amended (ctypeFilter ctPos) (ctypeFilter ctVel) ctPos []
      sceneFull.ctypeToContainer [[ctPos], [ctPos, ctVel]]
      [[ctPos, ctVel]]).2.2.2.2.1 (by decide) (by decide),
   (filter_combinators_amended (ctypeFilter ctPos) (ctypeFilter ctVel) ctPos []
      sceneFull.ctypeToContainer [[ctPos], [ctPos, ctVel]]
      [[ctPos, ctVel]]).2.2.2.2.2.2.1 (by decide) (by decide)⟩

/-! ### Claim C8 -/

/-- C8 counterexample: the generator simply converts each `uuid4` draw;
nothing prevents the entropy source from repeating a value, and when it
does (here: the draw stream that returns `0` twice) the two returned
ids are equal. Absolute pairwise distinctness is therefore not
guaranteed by the code — only distinctness of the underlying random
draws. -/
theorem entity_ids_can_repeat_counterexample :
    genEntityIds (fun _ => 0) 2 = [generateNewEntityId 0, generateNewEntityId 0]
    ∧ ¬(genEntityIds (fun _ => 0) 2).Pairwise (fun a b => a ≠ b) := by
  constructor
  · rfl
  · intro h
    rw [show genEntityIds (fun _ => 0) 2
          = [generateNewEntityId 0, generateNewEntityId 0] from rfl] at h
    exact (List.pairwise_cons.mp h).1 _ (List.mem_cons_self _ _) rfl

/-- C8 (amended): the id construction `Entity(uuid.int)` (decimal
string of the drawn integer) is injective, so the N ids returned by N
calls are pairwise distinct whenever the N underlying `uuid4` draws are
pairwise distinct; `uuid4` makes a repeated draw only negligibly
probable, not impossible. -/
theorem entity_ids_distinct_under_distinct_draws :
    ∀ (draws : Nat → Nat) (n : Nat),
      (∀ i j, i < n → j < n → i ≠ j → draws i ≠ draws j) →
      (genEntityIds draws n).Pairwise (fun a b => a ≠ b) := by
  intro draws n h
  unfold genEntityIds
  rw [List.pairwise_map]
  refine (List.pairwise_lt_range n).imp_of_mem ?_
  intro i j hi hj hij heq
  exact h i j (List.mem_range.mp hi) (List.mem_range.mp hj)
    (Nat.ne_of_lt hij) (generateNewEntityId_injective heq)

/-- C8 witness: three distinct draws give three pairwise distinct
ids. -/
theorem entity_ids_distinct_under_distinct_draws_witness :
    (genEntityIds (fun i => i) 3).Pairwise (fun a b => a ≠ b) :=
  entity_ids_distinct_under_distinct_draws (fun i => i) 3
    (fun _ _ _ _ hij => hij)

/-! ### Claim C5 -/

section ListIndexHelpers

variable {α : Type}

theorem getD_set_self (l : List α) (i : Nat) (a d : α) (h : i < l.length) :
    (l.set i a).getD i d = a := by
  rw [List.getD_eq_getElem?_getD, List.getElem?_set_self h]
  rfl

theorem getD_set_ne (l : List α) (i j : Nat) (a d : α) (h : i ≠ j) :
    (l.set i a).getD j d = l.getD j d := by
  rw [List.getD_eq_getElem?_getD, List.getD_eq_getElem?_getD,
    List.getElem?_set_ne h]

theorem getD_dropLast (l : List α) (j : Nat) (d : α) (h : j < l.length - 1) :
    l.dropLast.getD j d = l.getD j d := by
  rw [List.dropLast_eq_take, List.getD_eq_getElem?_getD,
    List.getD_eq_getElem?_getD, List.getElem?_take]
  simp [h]

end ListIndexHelpers

theorem alookup_map_val {κ ν ν' : Type} [DecidableEq κ] (f : ν → ν') (k : κ)
    (l : List (κ × ν)) :
    alookup k (l.map fun p => (p.1, f p.2)) = (alookup k l).map f := by
  induction l with
  | nil => rfl
  | cons p l ih => by_cases h : p.1 = k <;> simp [alookup, h, ih]

namespace Container

/-- Well-formedness of a container: entities are pairwise distinct,
every component column is parallel to the entity array, and the index
dict is exactly the row-number map of the entity array. -/
def WF (c : Container) : Prop :=
  c.entities.Nodup
  ∧ (∀ p ∈ c.components, p.2.length = c.entities.length)
  ∧ (∀ i < c.entities.length,
      alookup (c.entities.getD i entDefault) c.indices = some i)
  ∧ (∀ p ∈ c.indices,
      p.2 < c.entities.length ∧ c.entities.getD p.2 entDefault = p.1)

instance (c : Container) : Decidable c.WF := by
  unfold WF
  infer_instance

/-- `remove` spelled out on the two branches of the swap-and-pop. -/
theorem remove_eq (c : Container) (e : Entity) (i : Nat)
    (h : alookup e c.indices = some i) :
    c.remove e =
      if i ≠ c.entities.length - 1 then
        { signature := c.signature
          entities := (c.move i (c.entities.length - 1)).entities.dropLast
          components := (c.move i (c.entities.length - 1)).components.map
            (fun p => (p.1, p.2.dropLast))
          indices := eraseKey e (c.move i (c.entities.length - 1)).indices }
      else
        { signature := c.signature
          entities := c.entities.dropLast
          components := c.components.map (fun p => (p.1, p.2.dropLast))
          indices := eraseKey e c.indices } := by
  unfold remove
  rw [h]
  by_cases hc : i ≠ c.entities.length - 1 <;> simp [hc, move]

/-- Swap-and-pop specification of `remove` for a well-formed container
and a tracked entity at row `i`: every array shortens by exactly one,
the removed entity's index entry disappears, when `i` is not the last
row the previously last entity now occupies row `i` (index entry
updated accordingly), and every other entity still reads its original
component values through `get_component`. -/
theorem remove_spec (c : Container) (e : Entity) (i : Nat) (hwf : c.WF)
    (h : alookup e c.indices = some i) :
    (c.remove e).entities.length + 1 = c.entities.length
    ∧ (∀ p ∈ (c.remove e).components, p.2.length + 1 = c.entities.length)
    ∧ alookup e (c.remove e).indices = none
    ∧ (i ≠ c.entities.length - 1 →
        (c.remove e).entities.getD i entDefault
          = c.entities.getD (c.entities.length - 1) entDefault
        ∧ alookup (c.entities.getD (c.entities.length - 1) entDefault)
            (c.remove e).indices = some i)
    ∧ (∀ (e' : Entity) (t : CType), e' ≠ e → (alookup e' c.indices).isSome →
        (c.remove e).getComponent e' t = c.getComponent e' t) := by
  obtain ⟨hnodup, hlen, hidx1, hidx2⟩ := hwf
  have hi_lt : i < c.entities.length := (hidx2 (e, i) (alookup_mem h)).1
  have hi_get : c.entities.getD i entDefault = e := (hidx2 (e, i) (alookup_mem h)).2
  rw [Container.remove_eq c e i h]
  by_cases hcase : i ≠ c.entities.length - 1
  · -- the entity is not in the last row: `_move` then pop
    rw [if_pos hcase]
    have hlast_lt : c.entities.length - 1 < c.entities.length := by omega
    have hlook_em :
        alookup (c.entities.getD (c.entities.length - 1) entDefault) c.indices
          = some (c.entities.length - 1) := hidx1 _ hlast_lt
    have hem_ne : c.entities.getD (c.entities.length - 1) entDefault ≠ e := by
      intro hem
      rw [hem, h] at hlook_em
      exact hcase (by injection hlook_em)
    simp only [Container.move]
    have hfrom :
        (c.entities.set i (c.entities.getD (c.entities.length - 1) entDefault)).getD
            (c.entities.length - 1) entDefault
          = c.entities.getD (c.entities.length - 1) entDefault :=
      getD_set_ne _ _ _ _ _ hcase
    rw [hfrom]
    refine ⟨?_, ?_, ?_, ?_, ?_⟩
    · simp only [List.length_dropLast, List.length_set]
      omega
    · intro p hp
      simp only [List.map_map, List.mem_map, Function.comp] at hp
      obtain ⟨q, hq, rfl⟩ := hp
      simp only [List.length_dropLast, List.length_set]
      have := hlen q hq
      omega
    · exact alookup_eraseKey_self _ _
    · intro _
      constructor
      · rw [getD_dropLast _ _ _ (by simp only [List.length_set]; omega)]
        exact getD_set_self _ _ _ _ hi_lt
      · rw [alookup_eraseKey_other _ _ _ hem_ne, alookup_upsert_self]
    · intro e' t hne hsome
      obtain ⟨j, hj⟩ := Option.isSome_iff_exists.mp hsome
      have hj_lt : j < c.entities.length := (hidx2 (e', j) (alookup_mem hj)).1
      have hj_get : c.entities.getD j entDefault = e' := (hidx2 (e', j) (alookup_mem hj)).2
      have hji : j ≠ i := by
        intro hji
        rw [hji, hi_get] at hj_get
        exact hne hj_get.symm
      simp only [Container.getComponent]
      by_cases he' : e' = c.entities.getD (c.entities.length - 1) entDefault
      · have hjlast : j = c.entities.length - 1 := by
          rw [he'] at hj
          rw [hj] at hlook_em
          injection hlook_em
        have hidxnew :
            alookup e' (eraseKey e
              (upsert c.indices (c.entities.getD (c.entities.length - 1) entDefault) i))
              = some i := by
          rw [he', alookup_eraseKey_other _ _ _ hem_ne, alookup_upsert_self]
        rw [hidxnew, hj]
        rw [alookup_map_val, alookup_map_val
          (fun v => v.set i (v.getD (c.entities.length - 1) compDefault)) t c.components]
        cases halt : alookup t c.components with
        | none => rfl
        | some cl =>
            have hcl_len : cl.length = c.entities.length := hlen (t, cl) (alookup_mem halt)
            simp only [Option.map_some', Option.some.injEq, Option.getD_some]
            rw [getD_dropLast _ _ _ (by simp only [List.length_set]; omega),
              getD_set_self _ _ _ _ (by omega), hjlast]
      · have hjlast : j ≠ c.entities.length - 1 := by
          intro hjl
          rw [hjl] at hj_get
          exact he' hj_get.symm
        have hidxnew :
            alookup e' (eraseKey e
              (upsert c.indices (c.entities.getD (c.entities.length - 1) entDefault) i))
              = some j := by
          rw [alookup_eraseKey_other _ _ _ hne,
            alookup_upsert_other _ _ _ _ he', hj]
        rw [hidxnew, hj]
        rw [alookup_map_val, alookup_map_val
          (fun v => v.set i (v.getD (c.entities.length - 1) compDefault)) t c.components]
        cases halt : alookup t c.components with
        | none => rfl
        | some cl =>
            have hcl_len : cl.length = c.entities.length := hlen (t, cl) (alookup_mem halt)
            simp only [Option.map_some', Option.some.injEq, Option.getD_some]
            rw [getD_dropLast _ _ _ (by simp only [List.length_set]; omega),
              getD_set_ne _ _ _ _ _ (Ne.symm hji)]
  · -- the entity is in the last row: plain pop
    rw [if_neg hcase]
    have hieq : i = c.entities.length - 1 := not_not.mp hcase
    refine ⟨?_, ?_, ?_, ?_, ?_⟩
    · simp only [List.length_dropLast]
      omega
    · intro p hp
      simp only [List.mem_map] at hp
      obtain ⟨q, hq, rfl⟩ := hp
      simp only [List.length_dropLast]
      have := hlen q hq
      omega
    · exact alookup_eraseKey_self _ _
    · intro hcontra
      exact absurd hieq hcontra
    · intro e' t hne hsome
      obtain ⟨j, hj⟩ := Option.isSome_iff_exists.mp hsome
      have hj_lt : j < c.entities.length := (hidx2 (e', j) (alookup_mem hj)).1
      have hj_get : c.entities.getD j entDefault = e' := (hidx2 (e', j) (alookup_mem hj)).2
      have hji : j ≠ i := by
        intro hji
        rw [hji, hi_get] at hj_get
        exact hne hj_get.symm
      simp only [Container.getComponent]
      rw [alookup_eraseKey_other _ _ _ hne, hj, alookup_map_val]
      cases halt : alookup t c.components with
      | none => rfl
      | some cl =>
          have hcl_len : cl.length = c.entities.length := hlen (t, cl) (alookup_mem halt)
          simp only [Option.map_some', Option.some.injEq, Option.getD_some]
          rw [getD_dropLast _ _ _ (by omega)]

end Container

/-- Five entities sharing the signature `{Position}`, with component
values 1..5. -/
def sceneFive : Storage :=
  (Storage.create (Storage.create (Storage.create (Storage.create (Storage.create
    Storage.empty (some (.one ⟨ctPos, 1⟩)) entA).2 (some (.one ⟨ctPos, 2⟩)) entB).2
    (some (.one ⟨ctPos, 3⟩)) entC).2 (some (.one ⟨ctPos, 4⟩)) entD).2
    (some (.one ⟨ctPos, 5⟩)) entE).2

/-- C5: container removal is swap-and-pop. For every well-formed
container and tracked entity at row `i`: all arrays shorten by exactly
one, the removed entity's index entry is deleted, when `i` is not the
last row the previously last entity is moved into row `i` with its
index entry updated to `i`, and every other entity still reads its
original component values. Consequently, in the five-entity scenario,
`destroy(e3)` leaves `e1, e2, e4, e5` reporting their original values
via `get` and shrinks `len(Storage)` by exactly one. -/
theorem container_remove_swap_pop :
    (∀ (c : Container) (e : Entity) (i : Nat), c.WF →
      alookup e c.indices = some i →
      (c.remove e).entities.length + 1 = c.entities.length
      ∧ (∀ p ∈ (c.remove e).components, p.2.length + 1 = c.entities.length)
      ∧ alookup e (c.remove e).indices = none
      ∧ (i ≠ c.entities.length - 1 →
          (c.remove e).entities.getD i entDefault
            = c.entities.getD (c.entities.length - 1) entDefault
          ∧ alookup (c.entities.getD (c.entities.length - 1) entDefault)
              (c.remove e).indices = some i)
      ∧ (∀ (e' : Entity) (t : CType), e' ≠ e → (alookup e' c.indices).isSome →
          (c.remove e).getComponent e' t = c.getComponent e' t))
    ∧ (Storage.destroy sceneFive entC).1 = .ok ()
    ∧ Storage.size (Storage.destroy sceneFive entC).2 + 1 = Storage.size sceneFive
    ∧ Storage.get (Storage.destroy sceneFive entC).2 entA (.one ctPos)
        = .ok (.inl ⟨ctPos, 1⟩)
    ∧ Storage.get (Storage.destroy sceneFive entC).2 entB (.one ctPos)
        = .ok (.inl ⟨ctPos, 2⟩)
    ∧ Storage.get (Storage.destroy sceneFive entC).2 entD (.one ctPos)
        = .ok (.inl ⟨ctPos, 4⟩)
    ∧ Storage.get (Storage.destroy sceneFive entC).2 entE (.one ctPos)
        = .ok (.inl ⟨ctPos, 5⟩) :=
  ⟨fun c e i hwf h => Container.remove_spec c e i hwf h,
   by decide, by decide, by decide, by decide, by decide, by decide⟩

/-- The `{Position}` container of the five-entity scenario. -/
def cFive : Container := sceneFive.getContainer (sigOf [ctPos])

/-- C5 witness: the general part of the theorem applied to the concrete
five-row container, removing the entity at row 2. -/
theorem container_remove_swap_pop_witness :
    (cFive.remove entC).entities.length + 1 = cFive.entities.length
    ∧ alookup entC (cFive.remove entC).indices = none
    ∧ (cFive.remove entC).getComponent entE ctPos = cFive.getComponent entE ctPos :=
  ⟨(container_remove_swap_pop.1 cFive entC 2 (by decide) (by decide)).1,
   (container_remove_swap_pop.1 cFive entC 2 (by decide) (by decide)).2.2.1,
   (container_remove_swap_pop.1 cFive entC 2 (by decide) (by decide)).2.2.2.2
     entE ctPos (by decide) (by decide)⟩

end Mecs
